import Mathlib

/-!
Verification development for the seed-protocol-feed repository.

The definitions below are a shallow embedding of the repository's feed cache
and synchronization layer:

* `src/src/utils/etag.ts` — ETag generation and `If-None-Match` handling,
  including a byte-level model of Node's `createHash('md5')` so that the
  codec is executable;
* `src/src/services/arweaveImageService.ts` — gateway-probing image
  detection, with the network modelled as an oracle mapping URLs to
  responses and the `image-size` library as an oracle over byte buffers;
* `handleFeedRequest` in `src/src/services/arweaveImageService.ts` — the
  request orchestrator state machine, with the upstream item fetcher and
  the feed renderer modelled as oracles;
* the `CacheManager` component (`src/cache/CacheManager.ts`), which is not
  present in the source snapshot, modelled from the specification's
  component contract (each such definition is marked `Modelled from the
  spec:`).

JavaScript string primitives (`split`, `trim`, `toLowerCase`,
`startsWith`, quote stripping) are modelled by structurally recursive
character-list functions so that every definition evaluates inside the
kernel.
-/

namespace SeedFeed

/-! ## JavaScript string primitives -/

/-- Model of `String.prototype.toLowerCase` restricted to ASCII (all
strings the code compares are ASCII). -/
def charLower (c : Char) : Char :=
  if 65 ≤ c.toNat ∧ c.toNat ≤ 90 then Char.ofNat (c.toNat + 32) else c

/-- Lowercase a string, ASCII-wise. -/
def strLower (s : String) : String :=
  String.mk (s.toList.map charLower)

/-- Whitespace characters removed by `String.prototype.trim`: space, tab,
line feed, vertical tab, form feed, carriage return. -/
def isJsSpace (c : Char) : Bool :=
  c.toNat == 32 || (9 ≤ c.toNat && c.toNat ≤ 13)

/-- Model of `String.prototype.trim`. -/
def strTrim (s : String) : String :=
  String.mk (((s.toList.dropWhile isJsSpace).reverse.dropWhile isJsSpace).reverse)

/-- Split a character list on a separator character, keeping empty
pieces, as `String.prototype.split` does with a one-character separator. -/
def splitChar (sep : Char) : List Char → List (List Char)
  | [] => [[]]
  | c :: cs =>
    match splitChar sep cs with
    | [] => if c = sep then [[], [c]] else [[c]]
    | h :: t => if c = sep then [] :: h :: t else (c :: h) :: t

/-- Split a string on a one-character separator. -/
def strSplit (sep : Char) (s : String) : List String :=
  (splitChar sep s.toList).map String.mk

/-- Suffix of `l` after the first occurrence of `pat`, or `none` when
`pat` does not occur (model of a JavaScript unanchored regex match). -/
def afterFirst (pat : List Char) : List Char → Option (List Char)
  | [] => if pat.isEmpty then some [] else none
  | c :: cs =>
    if List.isPrefixOf pat (c :: cs) then some (List.drop pat.length (c :: cs))
    else afterFirst pat cs

/-- Model of `String.prototype.startsWith`. -/
def strStartsWith (s pat : String) : Bool :=
  List.isPrefixOf pat.toList s.toList

/-! ## MD5 (model of Node `createHash('md5')`, used by `generateETag`) -/

/-- UTF-8 encoding of one character (the byte encoding Node's
`hash.update(value)` applies to a JavaScript string). -/
def utf8EncodeChar (c : Char) : List Nat :=
  let n := c.toNat
  if n < 128 then [n]
  else if n < 2048 then
    [192 ||| (n >>> 6), 128 ||| (n &&& 63)]
  else if n < 65536 then
    [224 ||| (n >>> 12), 128 ||| ((n >>> 6) &&& 63), 128 ||| (n &&& 63)]
  else
    [240 ||| (n >>> 18), 128 ||| ((n >>> 12) &&& 63),
     128 ||| ((n >>> 6) &&& 63), 128 ||| (n &&& 63)]

/-- UTF-8 bytes of a string. -/
def utf8Bytes (s : String) : List Nat :=
  (s.toList.map utf8EncodeChar).flatten

/-- Little-endian byte list of a natural number, `count` bytes. -/
def leBytes (n : Nat) (count : Nat) : List Nat :=
  (List.range count).map (fun i => (n >>> (8 * i)) &&& 255)

/-- Rotate a 32-bit word (represented as a `Nat` below `2^32`) left by `n`. -/
def rotl32 (x n : Nat) : Nat :=
  ((x <<< n) % 4294967296) ||| (x >>> (32 - n))

/-- MD5 padding: append `0x80`, zero bytes up to 56 mod 64, then the
64-bit little-endian bit length. -/
def md5Pad (msg : List Nat) : List Nat :=
  let len := msg.length
  let zeros := (120 - ((len + 1) % 64)) % 64
  msg ++ [128] ++ List.replicate zeros 0 ++
    leBytes ((len * 8) % 18446744073709551616) 8

/-- Decode the 64-byte chunk of `msg` starting at byte `64 * i` as 16
little-endian 32-bit words. -/
def chunkWords (msg : List Nat) (i : Nat) : List Nat :=
  let c := (msg.drop (64 * i)).take 64
  (List.range 16).map (fun j =>
    (c.getD (4 * j) 0) ||| ((c.getD (4 * j + 1) 0) <<< 8) |||
    ((c.getD (4 * j + 2) 0) <<< 16) ||| ((c.getD (4 * j + 3) 0) <<< 24))

/-- MD5 sine-derived round constants. -/
def md5K : List Nat :=
  [3614090360, 3905402710, 606105819, 3250441966,
   4118548399, 1200080426, 2821735955, 4249261313,
   1770035416, 2336552879, 4294925233, 2304563134,
   1804603682, 4254626195, 2792965006, 1236535329,
   4129170786, 3225465664, 643717713, 3921069994,
   3593408605, 38016083, 3634488961, 3889429448,
   568446438, 3275163606, 4107603335, 1163531501,
   2850285829, 4243563512, 1735328473, 2368359562,
   4294588738, 2272392833, 1839030562, 4259657740,
   2763975236, 1272893353, 4139469664, 3200236656,
   681279174, 3936430074, 3572445317, 76029189,
   3654602809, 3873151461, 530742520, 3299628645,
   4096336452, 1126891415, 2878612391, 4237533241,
   1700485571, 2399980690, 4293915773, 2240044497,
   1873313359, 4264355552, 2734768916, 1309151649,
   4149444226, 3174756917, 718787259, 3951481745]

/-- MD5 per-round left-rotation amounts. -/
def md5S : List Nat :=
  [7, 12, 17, 22, 7, 12, 17, 22, 7, 12, 17, 22, 7, 12, 17, 22,
   5, 9, 14, 20, 5, 9, 14, 20, 5, 9, 14, 20, 5, 9, 14, 20,
   4, 11, 16, 23, 4, 11, 16, 23, 4, 11, 16, 23, 4, 11, 16, 23,
   6, 10, 15, 21, 6, 10, 15, 21, 6, 10, 15, 21, 6, 10, 15, 21]

/-- One MD5 round on state `(a, b, c, d)` for round index `i`. -/
def md5Round (w : List Nat) (st : Nat × Nat × Nat × Nat) (i : Nat) :
    Nat × Nat × Nat × Nat :=
  let (a, b, c, d) := st
  let fg : Nat × Nat :=
    if i < 16 then ((b &&& c) ||| ((4294967295 ^^^ b) &&& d), i)
    else if i < 32 then ((d &&& b) ||| ((4294967295 ^^^ d) &&& c), (5 * i + 1) % 16)
    else if i < 48 then (b ^^^ c ^^^ d, (3 * i + 5) % 16)
    else (c ^^^ (b ||| (4294967295 ^^^ d)), (7 * i) % 16)
  let tmp := (a + fg.1 + md5K.getD i 0 + w.getD fg.2 0) % 4294967296
  let nb := (b + rotl32 tmp (md5S.getD i 0)) % 4294967296
  (d, nb, b, c)

/-- Process the chunk of `msg` at index `i`. -/
def md5Chunk (msg : List Nat) (st : Nat × Nat × Nat × Nat) (i : Nat) :
    Nat × Nat × Nat × Nat :=
  let w := chunkWords msg i
  let r := (List.range 64).foldl (md5Round w) st
  ((st.1 + r.1) % 4294967296, (st.2.1 + r.2.1) % 4294967296,
   (st.2.2.1 + r.2.2.1) % 4294967296, (st.2.2.2 + r.2.2.2) % 4294967296)

/-- Hex digit character (lowercase). -/
def hexDigit (n : Nat) : Char :=
  if n < 10 then Char.ofNat (48 + n) else Char.ofNat (87 + n)

/-- Two-digit lowercase hex rendering of a byte. -/
def byteHex (n : Nat) : String :=
  String.mk [hexDigit (n / 16), hexDigit (n % 16)]

/-- MD5 hex digest of a string, as Node's
`createHash('md5').update(value).digest('hex')` produces it. -/
def md5hex (s : String) : String :=
  let msg := md5Pad (utf8Bytes s)
  let r := (List.range (msg.length / 64)).foldl (md5Chunk msg)
    (1732584193, 4023233417, 2562383102, 271733878)
  String.join ((leBytes r.1 4 ++ leBytes r.2.1 4 ++
    leBytes r.2.2.1 4 ++ leBytes r.2.2.2 4).map byteHex)

/-! ## ETag utilities, from `src/src/utils/etag.ts` -/

/-- Embeds `generateETag` (etag.ts lines 7-10): quote the first 16 hex
characters of the MD5 of the value. -/
def generateETag (value : String) : String :=
  "\"" ++ String.mk ((md5hex value).toList.take 16) ++ "\""

/-- Embeds `generateFeedETag` (etag.ts lines 15-23). -/
def generateFeedETag (schemaName format : String)
    (lastProcessedTimestamp itemCount : Nat) : String :=
  generateETag (schemaName ++ "-" ++ format ++ "-" ++
    toString lastProcessedTimestamp ++ "-" ++ toString itemCount)

/-- Embeds `generateContentETag` (etag.ts lines 28-36). Note that the
content itself is not an argument: only its length is. -/
def generateContentETag (schemaName format : String)
    (lastModified contentLength : Nat) : String :=
  generateETag (schemaName ++ "-" ++ format ++ "-" ++
    toString lastModified ++ "-" ++ toString contentLength)

/-- Embeds the `normalize` closure in `etagMatches` (etag.ts line 44):
`etag.replace(/^"|"$/g, '')`, which strips one leading and one trailing
double quote. -/
def normalizeETag (etag : String) : String :=
  let l := etag.toList
  let l1 := match l with
    | '"' :: rest => rest
    | other => other
  String.mk (match l1.getLast? with
    | some '"' => l1.dropLast
    | _ => l1)

/-- Embeds `etagMatches` (etag.ts lines 42-46). -/
def etagMatches (etag1 etag2 : String) : Bool :=
  normalizeETag etag1 == normalizeETag etag2

/-- Embeds `parseIfNoneMatch` (etag.ts lines 52-60). `none` stands for a
null or undefined header; the empty string is also falsy under the
source's `!headerValue` guard. -/
def parseIfNoneMatch (headerValue : Option String) : List String :=
  match headerValue with
  | none => []
  | some v =>
    if v = "" then []
    else ((strSplit ',' v).map strTrim).filter (fun e => 0 < e.length)

/-- Embeds `checkIfNoneMatch` (etag.ts lines 65-81). -/
def checkIfNoneMatch (ifNoneMatchHeader : Option String)
    (currentETag : String) : Bool :=
  let etags := parseIfNoneMatch ifNoneMatchHeader
  if etags.isEmpty then false
  else if etags.contains "*" then true
  else etags.any (fun e => etagMatches e currentETag)

/-! ## Image detection service, from `src/src/services/arweaveImageService.ts` -/

/-- Outcome of one HTTP call made via `fetchWithTimeout`: either a
network/timeout error (the promise rejects), or a response carrying
`ok`, the `content-type` header (`""` models an absent header, matching
the source's `|| ''` default), the parsed `content-length` header (`none`
models an absent header), and the body bytes. -/
inductive FetchOut
  | err
  | resp (ok : Bool) (contentType : String) (contentLength : Option Nat) (body : List Nat)
deriving DecidableEq

/-- Result record of the external `image-size` library (`sizeOf`). -/
structure SizeResult where
  width : Option Nat := none
  height : Option Nat := none
  type : Option String := none
deriving DecidableEq

/-- Network and library oracle for the image service: what each HEAD,
ranged GET and full GET against a URL returns, and what `sizeOf` reports
for a byte buffer (`none` models the library throwing). -/
structure NetEnv where
  headReq : String → FetchOut
  rangeReq : String → FetchOut
  fullReq : String → FetchOut
  sizeOf : List Nat → Option SizeResult

/-- Network call issued by the service, recorded for fetch-count
properties. -/
inductive NetCall
  | head (url : String)
  | rangeGet (url : String)
  | fullGet (url : String)
deriving DecidableEq

/-- Embeds the `ImageMetadata` shape of `src/src/types.ts` as used by the
service. The TypeScript optional fields are `Option`s. -/
structure ImageMetadata where
  isImage : Bool
  url : String
  mimeType : Option String := none
  width : Option Nat := none
  height : Option Nat := none
  size : Option Nat := none
  format : Option String := none
deriving DecidableEq

/-- Embeds `isImageContentType` (arweaveImageService.ts lines 139-144). -/
def isImageContentType (contentType : String) : Bool :=
  if contentType = "" then false
  else
    let normalized := strTrim (((strSplit ';' (strLower contentType))).headD "")
    strStartsWith normalized "image/"

/-- Embeds `extractImageDimensions` (arweaveImageService.ts lines
149-168): `sizeOf` result if width and height are both truthy, otherwise
the `(0, 0)` default (also on a `sizeOf` throw). -/
def extractImageDimensions (env : NetEnv) (buffer : List Nat) : Nat × Nat :=
  match env.sizeOf buffer with
  | some dims =>
    match dims.width, dims.height with
    | some w, some h => if w ≠ 0 ∧ h ≠ 0 then (w, h) else (0, 0)
    | _, _ => (0, 0)
  | none => (0, 0)

/-- Capture group of the regex `image\/([^;]+)` applied to a lowercased
content type: the non-empty run after the first `image/` up to a `;`. -/
def imageFormatMatch (lower : String) : Option String :=
  match afterFirst "image/".toList lower.toList with
  | none => none
  | some rest =>
    let captured := (splitChar ';' rest).headD []
    if captured.isEmpty then none else some (String.mk captured)

/-- Embeds `getImageFormat` (arweaveImageService.ts lines 173-200):
content-type match first (with normalization of common formats), then
`sizeOf` type sniffing. -/
def getImageFormat (env : NetEnv) (contentType : String) (buffer : List Nat) :
    Option String :=
  let fromContentType : Option String :=
    if contentType = "" then none
    else
      match imageFormatMatch (strLower contentType) with
      | some fmt =>
        some (if fmt = "jpeg" then "jpeg"
          else if fmt = "png" then "png"
          else if fmt = "gif" then "gif"
          else if fmt = "webp" then "webp"
          else if fmt = "svg+xml" then "svg"
          else fmt)
      | none => none
  match fromContentType with
  | some fmt => some fmt
  | none =>
    match env.sizeOf buffer with
    | some dims => dims.type.map strLower
    | none => none

/-- Embeds `getImageMetadataFromFullRequest` (arweaveImageService.ts
lines 106-134), the fallback when range requests fail. Also returns the
network calls issued. -/
def getImageMetadataFromFullRequest (env : NetEnv) (url contentType : String) :
    ImageMetadata × List NetCall :=
  match env.fullReq url with
  | .err => ({ isImage := false, url := url }, [.fullGet url])
  | .resp ok _ _ body =>
    if ok then
      let dims := extractImageDimensions env body
      let fmt := getImageFormat env contentType body
      ({ isImage := true, url := url, mimeType := some contentType,
         width := some dims.1, height := some dims.2,
         size := some body.length, format := fmt }, [.fullGet url])
    else ({ isImage := false, url := url }, [.fullGet url])

/-- Embeds `getImageMetadata` (arweaveImageService.ts lines 50-101):
HEAD first; non-image content types return immediately; image content
types proceed to a ranged GET, with a full GET fallback when the range
request is refused. A network error anywhere yields the catch-all
`{isImage: false, url}`. Also returns the network calls issued. -/
def getImageMetadata (env : NetEnv) (url : String) : ImageMetadata × List NetCall :=
  match env.headReq url with
  | .err => ({ isImage := false, url := url }, [.head url])
  | .resp ok contentType contentLength _ =>
    if ok then
      if isImageContentType contentType then
        match env.rangeReq url with
        | .err => ({ isImage := false, url := url }, [.head url, .rangeGet url])
        | .resp rok _ _ rbody =>
          if rok then
            let dims := extractImageDimensions env rbody
            let fmt := getImageFormat env contentType rbody
            ({ isImage := true, url := url, mimeType := some contentType,
               width := some dims.1, height := some dims.2,
               size := contentLength, format := fmt },
             [.head url, .rangeGet url])
          else
            let r := getImageMetadataFromFullRequest env url contentType
            (r.1, [.head url, .rangeGet url] ++ r.2)
      else
        ({ isImage := false, url := url,
           mimeType := if contentType = "" then none else some contentType,
           size := contentLength }, [.head url])
    else ({ isImage := false, url := url }, [.head url])

/-- Gateway URL construction `https://${gateway}/${transactionId}`. -/
def mkGatewayUrl (gateway txId : String) : String :=
  "https://" ++ gateway ++ "/" ++ txId

/-- Loop body of `detectImage` (arweaveImageService.ts lines 26-38): try
each gateway in order, returning the first metadata whose `isImage` is
true; everything else — network errors and definitive non-image results
alike — falls through to the next gateway. `getImageMetadata` never
throws, so the source's catch-and-continue is unreachable. -/
def detectImageGo (env : NetEnv) (txId : String) : List String → Option ImageMetadata
  | [] => none
  | g :: rest =>
    let url := mkGatewayUrl g txId
    let metadata := (getImageMetadata env url).1
    if metadata.isImage then some metadata else detectImageGo env txId rest

/-- Embeds `detectImage` (arweaveImageService.ts lines 22-45). When no
gateway reports an image the result is anchored to the first gateway's
URL; with an empty gateway list, `gateways[0]` is the JavaScript
`undefined`, which string-interpolates as `"undefined"`. -/
def detectImage (env : NetEnv) (gateways : List String) (txId : String) :
    ImageMetadata :=
  match detectImageGo env txId gateways with
  | some m => m
  | none => { isImage := false, url := mkGatewayUrl (gateways.headD "undefined") txId }

/-! ## Cache data model

The `CacheManager` component lives in `src/cache/CacheManager.ts`, which is
not part of the source snapshot (only its call sites in
`handleFeedRequest` and its integration tests are). Its operations are
modelled from the specification, §3 and §4.1. -/

/-- Content item: a required `id` and `timeCreated` plus an opaque bag of
upstream-defined fields, collapsed into one `fields` component (§3
ContentItem, design note §9). -/
structure ContentItem where
  id : String
  timeCreated : Nat
  fields : String
deriving DecidableEq

/-- FeedDataEntry, per schema name (§3). -/
structure FeedDataEntry where
  items : List ContentItem
  lastProcessedTimestamp : Nat
  savedAt : Nat
deriving DecidableEq

/-- FeedContentEntry, keyed by schema and format (§3). -/
structure FeedContentEntry where
  content : String
  contentType : String
  etag : String
  lastModified : Nat
  savedAt : Nat
deriving DecidableEq

/-- Persisted cache state: one record per schema for item data, one per
(schema, format) for rendered content (§6). Writes prepend, reads take
the first match, so a rewrite overwrites. -/
structure CacheState where
  feedData : List (String × FeedDataEntry)
  feedContent : List ((String × String) × FeedContentEntry)
deriving DecidableEq

/-- Cache configuration fields consumed by `handleFeedRequest`
(`loadCacheConfig()` in the source): `enabled`, the shared feed TTL, and
whether image-metadata enrichment is configured. -/
structure CacheConfig where
  enabled : Bool
  ttl : Nat
  imageMetadataEnabled : Bool

/-- Modelled from the spec: the shared TTL-expiry rule of §3 — an entry
is expired when `now - savedAt > ttl` (truncated subtraction: a `savedAt`
in the future is not expired, matching the JavaScript comparison for
nonnegative TTLs). -/
def entryExpired (ttl now savedAt : Nat) : Bool :=
  decide (ttl < now - savedAt)

/-- Raw stored feed-data record for a schema. -/
def lookupFeedData (st : CacheState) (schema : String) : Option FeedDataEntry :=
  (st.feedData.find? (fun p => p.1 == schema)).map (·.2)

/-- Raw stored content record for (schema, format). -/
def lookupFeedContent (st : CacheState) (schema format : String) :
    Option FeedContentEntry :=
  (st.feedContent.find? (fun p => p.1.1 == schema && p.1.2 == format)).map (·.2)

/-- Modelled from the spec: `CacheManager.getFeedData` (§4.1) — null when
absent or expired. -/
def getFeedData (cfg : CacheConfig) (now : Nat) (st : CacheState)
    (schema : String) : Option FeedDataEntry :=
  match lookupFeedData st schema with
  | some e => if entryExpired cfg.ttl now e.savedAt then none else some e
  | none => none

/-- Modelled from the spec: `CacheManager.getFeedContent` (§4.1) on the
fresh path — expired entries are treated as absent (§3). -/
def getFeedContent (cfg : CacheConfig) (now : Nat) (st : CacheState)
    (schema format : String) : Option FeedContentEntry :=
  match lookupFeedContent st schema format with
  | some e => if entryExpired cfg.ttl now e.savedAt then none else some e
  | none => none

/-- Modelled from the spec: the error-path read of the possibly expired
FeedContentEntry (§4.3 step 4; the "ignoreExpiry" accessor of §4.1). -/
def getFeedContentStale (st : CacheState) (schema format : String) :
    Option FeedContentEntry :=
  lookupFeedContent st schema format

/-- High-water mark of the items' creation times. -/
def maxTimeCreated (items : List ContentItem) : Nat :=
  items.foldl (fun acc i => max acc i.timeCreated) 0

/-- Modelled from the spec: `CacheManager.setFeedData` (§4.1) — computes
`lastProcessedTimestamp` from the items and persists. -/
def setFeedData (now : Nat) (st : CacheState) (schema : String)
    (items : List ContentItem) : CacheState :=
  { st with feedData :=
      (schema, { items := items, lastProcessedTimestamp := maxTimeCreated items,
                 savedAt := now }) :: st.feedData }

/-- Modelled from the spec: `CacheManager.setFeedContent` (§4.1) —
generates a fresh etag and lastModified and persists atomically; per §3
the etag is `generateContentETag` over (schema, format, lastModified,
content length), with `content.length` the JavaScript string length. -/
def setFeedContent (now : Nat) (st : CacheState) (schema format : String)
    (content contentType : String) : CacheState :=
  let lastModified := now
  let etag := generateContentETag schema format lastModified content.length
  { st with feedContent :=
      ((schema, format),
       { content := content, contentType := contentType, etag := etag,
         lastModified := lastModified, savedAt := now }) :: st.feedContent }

/-- Modelled from the spec: `CacheManager.filterNewItems` (§4.1) — items
whose `timeCreated` is strictly above the watermark. -/
def filterNewItems (allItems : List ContentItem) (watermark : Nat) :
    List ContentItem :=
  allItems.filter (fun i => decide (watermark < i.timeCreated))

/-- Modelled from the spec: `CacheManager.mergeItems` (§4.1) — merge by
`id`: a new item whose id is already cached replaces the cached one in
place (upstream edits win); items with unseen ids are appended after the
cached sequence; no re-sorting by timestamp. -/
def mergeItems (cachedItems newItems : List ContentItem) : List ContentItem :=
  (cachedItems.map (fun c =>
    match newItems.find? (fun n => n.id == c.id) with
    | some n => n
    | none => c)) ++
  newItems.filter (fun n => !(cachedItems.any (fun c => c.id == n.id)))

/-! ## Single-flight refresh lock

Modelled from the spec, §4.2: a process-wide map from key to the
in-flight promise, with the map check-and-insert synchronous (hence
atomic under the single-threaded cooperative scheduling of §5), and the
entry removed when the operation settles. Promises are identified by
allocation order; the work execution log records each time the `work`
closure is started. -/

/-- State of the refresh-lock coordinator. -/
structure LockState where
  inflight : List (String × Nat)
  execs : List String
  nextId : Nat
deriving DecidableEq

/-- Modelled from the spec: one caller entering `withRefreshLock(key,
work)` — if an in-flight promise exists for the key the caller joins it,
otherwise the work starts, a fresh promise is recorded under the key, and
the execution is logged. Returns the promise id the caller awaits. -/
def acquire (k : String) (st : LockState) : Nat × LockState :=
  match (st.inflight.find? (fun p => p.1 == k)).map (·.2) with
  | some p => (p, st)
  | none =>
    (st.nextId,
     { inflight := (k, st.nextId) :: st.inflight,
       execs := st.execs ++ [k],
       nextId := st.nextId + 1 })

/-- Modelled from the spec: the map entry is removed when the operation
settles (success or failure), so a later call starts fresh work. -/
def settleKey (k : String) (st : LockState) : LockState :=
  { st with inflight := st.inflight.filter (fun p => p.1 != k) }

/-- A storm of `n` concurrent callers for key `k`, all arriving before
the first call resolves: the interleaving of their synchronous
check-and-insert sections. Returns the promise ids received, in arrival
order. -/
def arriveAll (k : String) : Nat → LockState → List Nat × LockState
  | 0, st => ([], st)
  | n + 1, st =>
    let (p, st1) := acquire k st
    let (ps, st2) := arriveAll k n st1
    (p :: ps, st2)

/-! ## Request orchestrator, `handleFeedRequest`
(arweaveImageService.ts lines 879-1119) -/

/-- Request-scoped oracles for the orchestrator's external collaborators:
the current time, the upstream item fetcher outcome
(`getFeedItemsBySchemaName`, which may reject), the feed renderer
(`createFeed` over feedsmith, which may throw; arguments are the item
list, the format and the cache-busting parameter), the image-enrichment
pipeline (`enrichFeedItemsWithMedia`, which never throws — §7 swallows
every ImageDetectionFailure), `pluralize.singular`, and
`Date.prototype.toUTCString`. -/
structure Env where
  now : Nat
  fetchItems : Except String (List ContentItem)
  render : List ContentItem → String → Option String → Except String String
  enrich : List ContentItem → List ContentItem
  singular : String → String
  toUTCStringFn : Nat → String

/-- Response body: `empty` models the `null` body of a 304, `text` a feed
body, `jsonFields` the fields of a `JSON.stringify`ed error object. -/
inductive RespBody
  | empty
  | text (s : String)
  | jsonFields (fields : List (String × String))
deriving DecidableEq

/-- Observable outcome of one request: the HTTP response plus two pieces
of instrumentation — how many times the upstream item fetcher was invoked
and, when the refresh lock was entered, under which key. -/
structure HandlerResult where
  status : Nat
  headers : List (String × String)
  body : RespBody
  fetchCount : Nat
  lockKey : Option String
deriving DecidableEq

/-- Value of a response header, first match. -/
def headerVal (r : HandlerResult) (name : String) : Option String :=
  (r.headers.find? (fun p => p.1 == name)).map (·.2)

/-- Value of a field of a JSON error body. -/
def jsonField (r : HandlerResult) (name : String) : Option String :=
  match r.body with
  | .jsonFields fields => (fields.find? (fun p => p.1 == name)).map (·.2)
  | _ => none

/-- Embeds `parseFormat` (arweaveImageService.ts lines 879-885). -/
def parseFormat (segment : String) : Option String :=
  let normalized := strLower segment
  if ["rss", "atom", "json"].contains normalized then some normalized else none

/-- Embeds `getContentType` (arweaveImageService.ts lines 867-877). -/
def getContentType (format : String) : String :=
  if format = "atom" then "application/atom+xml; charset=utf-8"
  else if format = "json" then "application/feed+json; charset=utf-8"
  else "application/rss+xml; charset=utf-8"

/-- Embeds the `work` closure passed to `withRefreshLock`
(arweaveImageService.ts lines 970-1023): re-check the data cache; on a
warm cache fetch everything, filter against the watermark and merge only
when new items exist; on a cold cache fetch everything; enrich when
configured; persist the pre-enrichment items. Errors propagate (the
upstream fetch is the only throwing step). -/
def refreshWork (cfg : CacheConfig) (env : Env) (st : CacheState)
    (schemaName : String) : Except String (List ContentItem × CacheState) :=
  match getFeedData cfg env.now st schemaName with
  | some cachedData =>
    match env.fetchItems with
    | .error e => .error e
    | .ok allItems =>
      let newItems := filterNewItems allItems cachedData.lastProcessedTimestamp
      let items :=
        if 0 < newItems.length then mergeItems cachedData.items newItems
        else cachedData.items
      let enrichedItems := if cfg.imageMetadataEnabled then env.enrich items else items
      .ok (enrichedItems, setFeedData env.now st schemaName items)
  | none =>
    match env.fetchItems with
    | .error e => .error e
    | .ok items =>
      let enrichedItems := if cfg.imageMetadataEnabled then env.enrich items else items
      .ok (enrichedItems, setFeedData env.now st schemaName items)

/-- Embeds the cache-disabled direct fetch closure
(arweaveImageService.ts lines 1024-1046). -/
def directFetch (cfg : CacheConfig) (env : Env) : Except String (List ContentItem) :=
  match env.fetchItems with
  | .error e => .error e
  | .ok items => .ok (if cfg.imageMetadataEnabled then env.enrich items else items)

/-- Embeds the catch block (arweaveImageService.ts lines 1085-1118):
with caching enabled, serve the stored content entry as stale when one
exists; otherwise a 500 with the structured error body. `fc` and `lk`
carry the request's fetch count and lock key into the result. -/
def serveStaleOrError (cfg : CacheConfig) (st : CacheState)
    (schemaName format errMsg : String) (fc : Nat) (lk : Option String) :
    HandlerResult :=
  let fallback : Option FeedContentEntry :=
    if cfg.enabled then getFeedContentStale st schemaName format else none
  match fallback with
  | some staleContent =>
    { status := 200,
      headers := [("Content-Type", staleContent.contentType),
                  ("ETag", staleContent.etag),
                  ("Cache-Control", "public, max-age=3600, s-maxage=3600, must-revalidate"),
                  ("X-Feed-Schema", schemaName),
                  ("X-Feed-Format", format),
                  ("X-Cache", "STALE"),
                  ("Warning", "299 - \x22Cache is stale\x22")],
      body := .text staleContent.content, fetchCount := fc, lockKey := lk }
  | none =>
    { status := 500,
      headers := [("Content-Type", "application/json")],
      body := .jsonFields [("error", "Failed to generate feed"), ("message", errMsg)],
      fetchCount := fc, lockKey := lk }

/-- Embeds `handleFeedRequest` (arweaveImageService.ts lines 901-1119):
format validation, the fresh content-cache check with conditional-request
handling, the locked refresh (or unlocked direct fetch when caching is
disabled), render, persist, and the stale-or-500 catch. Returns the
response and the post-request cache state. -/
def handleFeedRequest (cfg : CacheConfig) (env : Env) (st : CacheState)
    (collectionSegment formatSegment : String)
    (ifNoneMatch : Option String) (cacheBust : Option String) :
    HandlerResult × CacheState :=
  match parseFormat formatSegment with
  | none =>
    ({ status := 400,
       headers := [("Content-Type", "application/json")],
       body := .jsonFields [("error", "Invalid feed format: " ++ formatSegment)],
       fetchCount := 0, lockKey := none }, st)
  | some format =>
    let schemaName := env.singular (strLower collectionSegment)
    let freshHit : Option FeedContentEntry :=
      if cfg.enabled then getFeedContent cfg env.now st schemaName format else none
    match freshHit with
    | some cachedContent =>
      if ((match ifNoneMatch with | some s => s != "" | none => false) &&
          checkIfNoneMatch ifNoneMatch cachedContent.etag : Bool) then
        ({ status := 304,
           headers := [("ETag", cachedContent.etag),
                       ("Last-Modified", env.toUTCStringFn cachedContent.lastModified),
                       ("Cache-Control", "public, max-age=3600, s-maxage=3600, must-revalidate")],
           body := .empty, fetchCount := 0, lockKey := none }, st)
      else
        ({ status := 200,
           headers := [("Content-Type", cachedContent.contentType),
                       ("ETag", cachedContent.etag),
                       ("Last-Modified", env.toUTCStringFn cachedContent.lastModified),
                       ("Cache-Control", "public, max-age=3600, s-maxage=3600, must-revalidate"),
                       ("X-Feed-Schema", schemaName),
                       ("X-Feed-Format", format),
                       ("X-Cache", "HIT")],
           body := .text cachedContent.content, fetchCount := 0, lockKey := none }, st)
    | none =>
      let lk : Option String := if cfg.enabled then some schemaName else none
      let fetched : Except String (List ContentItem × CacheState) :=
        if cfg.enabled then refreshWork cfg env st schemaName
        else (directFetch cfg env).map (fun items => (items, st))
      match fetched with
      | .error e => (serveStaleOrError cfg st schemaName format e 1 lk, st)
      | .ok (feedItems, st1) =>
        match env.render feedItems format cacheBust with
        | .error e => (serveStaleOrError cfg st1 schemaName format e 1 lk, st1)
        | .ok feedContent =>
          let contentType := getContentType format
          if cfg.enabled then
            let st2 := setFeedContent env.now st1 schemaName format feedContent contentType
            let cc := getFeedContent cfg env.now st2 schemaName format
            ({ status := 200,
               headers := [("Content-Type", contentType),
                           ("ETag", ((cc.map (·.etag)).getD "")),
                           ("Last-Modified",
                            env.toUTCStringFn ((cc.map (·.lastModified)).getD env.now)),
                           ("Cache-Control", "public, max-age=3600, s-maxage=3600, must-revalidate"),
                           ("X-Feed-Schema", schemaName),
                           ("X-Feed-Format", format),
                           ("X-Cache", "MISS")],
               body := .text feedContent, fetchCount := 1, lockKey := lk }, st2)
          else
            ({ status := 200,
               headers := [("Content-Type", contentType),
                           ("Cache-Control", "public, max-age=3600, s-maxage=3600"),
                           ("X-Feed-Schema", schemaName),
                           ("X-Feed-Format", format)],
               body := .text feedContent, fetchCount := 1, lockKey := none }, st1)

/-- Thrown message of the refresh path — the try block's fetch-render
pipeline exactly as `handleFeedRequest` sequences it — or `none` when no
step throws. -/
def refreshThrows (cfg : CacheConfig) (env : Env) (st : CacheState)
    (schemaName format : String) (cacheBust : Option String) : Option String :=
  match refreshWork cfg env st schemaName with
  | .error e => some e
  | .ok (feedItems, _) =>
    match env.render feedItems format cacheBust with
    | .error e => some e
    | .ok _ => none

/-! ## Concrete scenario environments -/

/-- Network oracle with two gateways for transaction `tx`: `g1` answers
the HEAD definitively with `text/plain` (a non-image), `g2` answers with
`image/png` and serves a ranged body whose dimensions `sizeOf` reports as
10 by 20. -/
def cexNet : NetEnv where
  headReq := fun u =>
    if u == "https://g1/tx" then .resp true "text/plain" (some 5) []
    else if u == "https://g2/tx" then .resp true "image/png" (some 100) []
    else .err
  rangeReq := fun u =>
    if u == "https://g2/tx" then .resp true "image/png" none [1, 2, 3] else .err
  fullReq := fun _ => .err
  sizeOf := fun b =>
    if b == [1, 2, 3] then some { width := some 10, height := some 20, type := some "png" }
    else none

/-- Collaborator oracle for the closed request scenarios. -/
def wEnv : Env where
  now := 5000
  fetchItems := .ok [⟨"1", 1000, "a"⟩, ⟨"2", 1001, "b"⟩]
  render := fun _ _ _ => .ok "<rss>fresh</rss>"
  enrich := id
  singular := fun s => s
  toUTCStringFn := fun n => "T" ++ toString n

/-- Collaborator oracle for the closed failure scenarios: the upstream
fetch rejects, and enough time has passed that the stored content entry
is expired. -/
def wErrEnv : Env where
  now := 99999
  fetchItems := .error "Network error"
  render := fun _ _ _ => .ok "<rss>fresh</rss>"
  enrich := id
  singular := fun s => s
  toUTCStringFn := fun n => "T" ++ toString n

/-- Cache configuration for the closed request scenarios. -/
def wCfg : CacheConfig :=
  { enabled := true, ttl := 3600, imageMetadataEnabled := false }

/-- Stored content entry for the closed request scenarios. -/
def wEntry : FeedContentEntry :=
  { content := "<rss>cached</rss>",
    contentType := "application/rss+xml; charset=utf-8",
    etag := "\x22abc123\x22", lastModified := 4000, savedAt := 4000 }

/-- Cache state holding `wEntry` under (post, rss). -/
def wSt : CacheState :=
  { feedData := [], feedContent := [(("post", "rss"), wEntry)] }

/-! ## Shared lemmas -/

/-- Merging with an empty new-item sequence is the identity. -/
theorem mergeItems_nil (a : List ContentItem) : mergeItems a [] = a := by
  unfold mergeItems
  simp

/-- An etag always matches itself. -/
theorem etagMatches_self (e : String) : etagMatches e e = true := by
  simp [etagMatches]

/-- When the stored etag survives header parsing as a single entry,
presenting it verbatim as `If-None-Match` matches. -/
theorem checkIfNoneMatch_self (e : String)
    (hwf : parseIfNoneMatch (some e) = [e]) :
    checkIfNoneMatch (some e) e = true := by
  unfold checkIfNoneMatch
  rw [hwf]
  by_cases h : ([e].contains "*") = true <;>
    simp [h, etagMatches_self]

/-- The refresh work only writes feed data, never content entries. -/
theorem refreshWork_feedContent (cfg : CacheConfig) (env : Env) (st : CacheState)
    (schemaName : String) (items : List ContentItem) (st1 : CacheState)
    (h : refreshWork cfg env st schemaName = .ok (items, st1)) :
    st1.feedContent = st.feedContent := by
  unfold refreshWork at h
  split at h <;> split at h <;>
    first
      | (simp only [Except.ok.injEq, Prod.mk.injEq] at h
         rw [← h.2]
         simp [setFeedData])
      | simp at h

/-! ## Claim theorems -/

/-- C5 (amended): the content etag is a deterministic function of
(schema, format, lastModified, content length) — identical inputs always
produce identical etags — and the content enters only through its length,
so a content change that preserves the length (with lastModified fixed)
does not produce a new etag. -/
theorem contentETag_deterministic_length_only (schemaName format : String)
    (lastModified : Nat) (c1 c2 : String) (h : c1.length = c2.length) :
    generateContentETag schemaName format lastModified c1.length =
      generateContentETag schemaName format lastModified c2.length := by
  rw [h]

/-- C5 witness: the amended theorem at concrete inputs. -/
theorem contentETag_deterministic_length_only_witness :
    String.length "ab" = String.length "ba" ∧
    generateContentETag "post" "rss" 1000 (String.length "ab") =
      generateContentETag "post" "rss" 1000 (String.length "ba") :=
  ⟨by decide,
   contentETag_deterministic_length_only "post" "rss" 1000 "ab" "ba" (by decide)⟩

/-- C5 counterexample: writing two content entries that differ only in
the content string ("ab" versus "ba", same length, same write time)
stores the same etag for both — a change to the content does not force a
new etag. -/
theorem contentETag_content_change_cex :
    "ab" ≠ "ba" ∧
    ((getFeedContentStale
        (setFeedContent 1000 ⟨[], []⟩ "post" "rss" "ab" "application/rss+xml; charset=utf-8")
        "post" "rss").map FeedContentEntry.etag =
      (getFeedContentStale
        (setFeedContent 1000 ⟨[], []⟩ "post" "rss" "ba" "application/rss+xml; charset=utf-8")
        "post" "rss").map FeedContentEntry.etag) :=
  ⟨by decide, by decide⟩

/-- C7: merging a merge result with the empty sequence leaves it
unchanged. -/
theorem mergeItems_merge_nil_idempotent (a b : List ContentItem) :
    mergeItems (mergeItems a b) [] = mergeItems a b :=
  mergeItems_nil (mergeItems a b)

/-- C6: `mergeItems` keeps the cached sequence's ids in their original
order and appends exactly the unseen-id new items after them (no
re-sorting by timestamp); a new item whose id is already cached replaces
the cached one (upstream edits win); and in the spec's scenario,
`filterNewItems` at watermark 1001 keeps only item 3 and the merge yields
all three items with item 3 appended last. -/
theorem mergeItems_spec :
    (∀ cached newItems : List ContentItem,
      (mergeItems cached newItems).map ContentItem.id =
        cached.map ContentItem.id ++
        (newItems.filter
          (fun n => !(cached.any (fun c => c.id == n.id)))).map ContentItem.id)
  ∧ (∀ (cached newItems : List ContentItem) (c n : ContentItem), c ∈ cached →
      newItems.find? (fun x => x.id == c.id) = some n →
      n ∈ mergeItems cached newItems)
  ∧ filterNewItems
      [⟨"1", 1000, "a"⟩, ⟨"2", 1001, "b"⟩, ⟨"3", 2000, "c"⟩] 1001 =
      [⟨"3", 2000, "c"⟩]
  ∧ mergeItems [⟨"1", 1000, "a"⟩, ⟨"2", 1001, "b"⟩] [⟨"3", 2000, "c"⟩] =
      [⟨"1", 1000, "a"⟩, ⟨"2", 1001, "b"⟩, ⟨"3", 2000, "c"⟩] := by
  refine ⟨?_, ?_, by decide, by decide⟩
  · intro cached newItems
    unfold mergeItems
    rw [List.map_append]
    congr 1
    rw [List.map_map]
    apply List.map_congr_left
    intro c _
    cases hfind : newItems.find? (fun n => n.id == c.id) with
    | none => simp [hfind]
    | some n =>
      have hn := List.find?_some hfind
      simp only [beq_iff_eq] at hn
      simp [hfind, hn]
  · intro cached newItems c n hc hfind
    unfold mergeItems
    apply List.mem_append_left
    have hrepl :
        (fun c => match newItems.find? (fun n => n.id == c.id) with
          | some n => n
          | none => c) c = n := by
      simp only [hfind]
    exact hrepl ▸ List.mem_map_of_mem _ hc

/-- C6 witness: the replacement conjunct at concrete inputs — the new
item with the already-cached id "1" lands in the merge result. -/
theorem mergeItems_spec_witness :
    (⟨"1", 1000, "a"⟩ : ContentItem) ∈ [(⟨"1", 1000, "a"⟩ : ContentItem)] ∧
    (⟨"1", 2000, "x"⟩ : ContentItem) ∈
      mergeItems [⟨"1", 1000, "a"⟩] [⟨"1", 2000, "x"⟩] :=
  ⟨by decide,
   mergeItems_spec.2.1 [⟨"1", 1000, "a"⟩] [⟨"1", 2000, "x"⟩]
     ⟨"1", 1000, "a"⟩ ⟨"1", 2000, "x"⟩ (by decide) (by decide)⟩

/-- C9: when the HEAD probe succeeds but carries a non-image content
type, the per-gateway detection returns a non-image result having issued
only the HEAD request — no ranged GET (and no full GET) follows. -/
theorem head_nonimage_skips_ranged_get (env : NetEnv) (url ct : String)
    (cl : Option Nat) (b : List Nat)
    (hhead : env.headReq url = .resp true ct cl b)
    (hct : isImageContentType ct = false) :
    (getImageMetadata env url).1.isImage = false ∧
    (getImageMetadata env url).2 = [.head url] := by
  simp [getImageMetadata, hhead, hct]

/-- C9 witness: the theorem at a HEAD response with `text/plain`. -/
theorem head_nonimage_skips_ranged_get_witness :
    (getImageMetadata cexNet "https://g1/tx").1.isImage = false ∧
    (getImageMetadata cexNet "https://g1/tx").2 = [.head "https://g1/tx"] :=
  head_nonimage_skips_ranged_get cexNet "https://g1/tx" "text/plain"
    (some 5) [] (by decide) (by decide)

/-- Helper: when every gateway's probe reports a non-image, the gateway
loop finds nothing. -/
theorem detectImageGo_none (env : NetEnv) (txId : String) (gws : List String)
    (h : ∀ g ∈ gws, (getImageMetadata env (mkGatewayUrl g txId)).1.isImage = false) :
    detectImageGo env txId gws = none := by
  induction gws with
  | nil => rfl
  | cons g rest ih =>
    have hg := h g (List.mem_cons_self g rest)
    simp only [detectImageGo, hg, Bool.false_eq_true, if_false]
    exact ih (fun g' hg' => h g' (List.mem_cons_of_mem g hg'))

/-- Helper: the gateway loop skips a run of non-image gateways and stops
at the first gateway whose probe reports an image. -/
theorem detectImageGo_skip (env : NetEnv) (txId g : String) (suf : List String)
    (hg : (getImageMetadata env (mkGatewayUrl g txId)).1.isImage = true) :
    ∀ pre, (∀ g' ∈ pre, (getImageMetadata env (mkGatewayUrl g' txId)).1.isImage = false) →
      detectImageGo env txId (pre ++ g :: suf) =
        some (getImageMetadata env (mkGatewayUrl g txId)).1 := by
  intro pre
  induction pre with
  | nil =>
    intro _
    simp [detectImageGo, hg]
  | cons p rest ih =>
    intro hpre
    have hp := hpre p (List.mem_cons_self p rest)
    simp only [List.cons_append, detectImageGo, hp, Bool.false_eq_true, if_false]
    exact ih (fun g' hg' => hpre g' (List.mem_cons_of_mem p hg'))

/-- C4 (amended): `detectImage` returns the result of the first gateway
whose probe reports an image; a definitive non-image result advances to
the next gateway exactly as a network/timeout error does, and when no
gateway reports an image the result is a non-image anchored to the first
gateway's URL. -/
theorem detectImage_first_image_wins (env : NetEnv) (txId : String) :
    (∀ gws, (∀ g ∈ gws, (getImageMetadata env (mkGatewayUrl g txId)).1.isImage = false) →
        detectImage env gws txId =
          { isImage := false, url := mkGatewayUrl (gws.headD "undefined") txId })
  ∧ (∀ pre g suf,
        (∀ g' ∈ pre, (getImageMetadata env (mkGatewayUrl g' txId)).1.isImage = false) →
        (getImageMetadata env (mkGatewayUrl g txId)).1.isImage = true →
        detectImage env (pre ++ g :: suf) txId =
          (getImageMetadata env (mkGatewayUrl g txId)).1) := by
  constructor
  · intro gws h
    unfold detectImage
    rw [detectImageGo_none env txId gws h]
  · intro pre g suf hpre hg
    unfold detectImage
    rw [detectImageGo_skip env txId g suf hg pre hpre]

/-- C4 witness: the amended theorem applied to the concrete oracle — g1
is a definitive non-image, g2 an image, and detection returns g2's
metadata. -/
theorem detectImage_first_image_wins_witness :
    detectImage cexNet ["g1", "g2"] "tx" =
      (getImageMetadata cexNet (mkGatewayUrl "g2" "tx")).1 :=
  (detectImage_first_image_wins cexNet "tx").2 ["g1"] "g2" []
    (by decide) (by decide)

/-- C4 counterexample: gateway g1's probe completes without a network or
timeout error and returns a definitive non-image, yet `detectImage` does
not treat that result as final — it advances and returns gateway g2's
image result. -/
theorem detectImage_nonimage_not_final_cex :
    cexNet.headReq "https://g1/tx" = .resp true "text/plain" (some 5) [] ∧
    (getImageMetadata cexNet "https://g1/tx").1.isImage = false ∧
    (detectImage cexNet ["g1", "g2"] "tx").url = "https://g2/tx" ∧
    (detectImage cexNet ["g1", "g2"] "tx").isImage = true ∧
    detectImage cexNet ["g1", "g2"] "tx" ≠ (getImageMetadata cexNet "https://g1/tx").1 := by
  decide

/-- C10: `checkIfNoneMatch` is false for a null or undefined header and
for one with no non-empty entries; it is true when some comma-separated
entry is the wildcard; otherwise it is true exactly when some entry
equals the stored etag after one layer of surrounding double quotes is
stripped from each side. -/
theorem checkIfNoneMatch_spec (h : Option String) (cur : String) :
    checkIfNoneMatch none cur = false
  ∧ (parseIfNoneMatch h = [] → checkIfNoneMatch h cur = false)
  ∧ ((parseIfNoneMatch h).contains "*" = true → checkIfNoneMatch h cur = true)
  ∧ ((parseIfNoneMatch h).contains "*" = false →
      (checkIfNoneMatch h cur = true ↔
        ∃ e ∈ parseIfNoneMatch h, normalizeETag e = normalizeETag cur)) := by
  refine ⟨rfl, ?_, ?_, ?_⟩
  · intro hp
    simp [checkIfNoneMatch, hp]
  · intro hstar
    have hmem : "*" ∈ parseIfNoneMatch h := by simpa using hstar
    have hne : (parseIfNoneMatch h).isEmpty = false := by
      cases hl : parseIfNoneMatch h with
      | nil => rw [hl] at hmem; simp at hmem
      | cons a t => simp
    simp [checkIfNoneMatch, hne, hmem]
  · intro hstar
    cases hl : parseIfNoneMatch h with
    | nil => simp [checkIfNoneMatch, hl]
    | cons a t =>
      rw [hl] at hstar
      have hnm : ¬ ("*" = a ∨ "*" ∈ t) := by simpa using hstar
      simp [checkIfNoneMatch, hl, etagMatches, List.any_eq_true, hnm]

/-- C10 witness: the matching conjunct applied concretely — the quoted
header form matches the unquoted stored etag. -/
theorem checkIfNoneMatch_spec_witness :
    checkIfNoneMatch (some "\x22abc\x22") "abc" = true :=
  ((checkIfNoneMatch_spec (some "\x22abc\x22") "abc").2.2.2 (by decide)).2
    ⟨"\x22abc\x22", by decide, by decide⟩

/-- C8 (amended): a format segment that does not parse to rss, atom or
json yields 400 with a JSON body carrying the error field; the body has
no message field (that field appears only on the 500 error body). -/
theorem invalid_format_400 (cfg : CacheConfig) (env : Env) (st : CacheState)
    (collectionSegment formatSegment : String)
    (ifNoneMatch cacheBust : Option String)
    (hfmt : parseFormat formatSegment = none) :
    (handleFeedRequest cfg env st collectionSegment formatSegment ifNoneMatch cacheBust).1.status = 400
  ∧ headerVal (handleFeedRequest cfg env st collectionSegment formatSegment ifNoneMatch cacheBust).1
      "Content-Type" = some "application/json"
  ∧ jsonField (handleFeedRequest cfg env st collectionSegment formatSegment ifNoneMatch cacheBust).1
      "error" = some ("Invalid feed format: " ++ formatSegment)
  ∧ jsonField (handleFeedRequest cfg env st collectionSegment formatSegment ifNoneMatch cacheBust).1
      "message" = none := by
  unfold handleFeedRequest
  rw [hfmt]
  exact ⟨rfl, rfl, rfl, rfl⟩

/-- C8 witness: the amended theorem at format segment "feed". -/
theorem invalid_format_400_witness :
    (handleFeedRequest wCfg wEnv ⟨[], []⟩ "posts" "feed" none none).1.status = 400 ∧
    jsonField (handleFeedRequest wCfg wEnv ⟨[], []⟩ "posts" "feed" none none).1 "message" = none :=
  ⟨(invalid_format_400 wCfg wEnv ⟨[], []⟩ "posts" "feed" none none (by decide)).1,
   (invalid_format_400 wCfg wEnv ⟨[], []⟩ "posts" "feed" none none (by decide)).2.2.2⟩

/-- C8 counterexample: for format segment "xml" the 400 response's JSON
body has an error field but no message field, refuting that the 400 body
contains both. -/
theorem invalid_format_message_cex :
    (handleFeedRequest wCfg wEnv ⟨[], []⟩ "posts" "xml" none none).1.status = 400 ∧
    jsonField (handleFeedRequest wCfg wEnv ⟨[], []⟩ "posts" "xml" none none).1 "error" =
      some "Invalid feed format: xml" ∧
    jsonField (handleFeedRequest wCfg wEnv ⟨[], []⟩ "posts" "xml" none none).1 "message" = none :=
  ⟨rfl, rfl, rfl⟩

/-- C2: with caching enabled and a fresh (non-expired) cached content
entry for the schema and format, an `If-None-Match` header equal to the
stored etag yields 304 with an empty body and no upstream fetch; a
missing or non-matching header yields 200 with `X-Cache: HIT` and the
full cached body, also without any upstream fetch. The well-formedness
hypothesis says the stored etag survives header parsing as a single
entry, which every etag the codec generates does. -/
theorem conditional_request_spec (cfg : CacheConfig) (env : Env) (st : CacheState)
    (collectionSegment formatSegment format : String)
    (ifNoneMatch cacheBust : Option String) (cc : FeedContentEntry)
    (hen : cfg.enabled = true)
    (hfmt : parseFormat formatSegment = some format)
    (hcc : getFeedContent cfg env.now st (env.singular (strLower collectionSegment)) format
      = some cc)
    (hwf : parseIfNoneMatch (some cc.etag) = [cc.etag]) :
    (ifNoneMatch = some cc.etag →
      (handleFeedRequest cfg env st collectionSegment formatSegment ifNoneMatch cacheBust).1.status = 304
    ∧ (handleFeedRequest cfg env st collectionSegment formatSegment ifNoneMatch cacheBust).1.body
        = RespBody.empty
    ∧ (handleFeedRequest cfg env st collectionSegment formatSegment ifNoneMatch cacheBust).1.fetchCount = 0)
  ∧ (checkIfNoneMatch ifNoneMatch cc.etag = false →
      (handleFeedRequest cfg env st collectionSegment formatSegment ifNoneMatch cacheBust).1.status = 200
    ∧ headerVal (handleFeedRequest cfg env st collectionSegment formatSegment ifNoneMatch cacheBust).1
        "X-Cache" = some "HIT"
    ∧ (handleFeedRequest cfg env st collectionSegment formatSegment ifNoneMatch cacheBust).1.body
        = RespBody.text cc.content
    ∧ (handleFeedRequest cfg env st collectionSegment formatSegment ifNoneMatch cacheBust).1.fetchCount = 0) := by
  constructor
  · intro hinm
    subst hinm
    have hne : cc.etag ≠ "" := by
      intro he
      rw [he] at hwf
      simp [parseIfNoneMatch] at hwf
    have hbne : (cc.etag != "") = true := by
      simp only [bne_iff_ne, ne_eq]
      exact hne
    have hchk := checkIfNoneMatch_self cc.etag hwf
    unfold handleFeedRequest
    rw [hfmt]
    simp only [hen, if_true, hcc, hbne, hchk, Bool.and_self]
    refine ⟨?_, ?_, ?_⟩ <;> trivial
  · intro hchk
    unfold handleFeedRequest
    rw [hfmt]
    simp only [hen, if_true, hcc, hchk, Bool.and_false]
    refine ⟨?_, ?_, ?_, ?_⟩ <;> trivial

/-- C2 witness: the 304 conjunct at the concrete scenario — the header
presents exactly the stored etag. -/
theorem conditional_request_spec_witness :
    (handleFeedRequest wCfg wEnv wSt "post" "rss" (some "\x22abc123\x22") none).1.status = 304
  ∧ (handleFeedRequest wCfg wEnv wSt "post" "rss" (some "\x22abc123\x22") none).1.body
      = RespBody.empty
  ∧ (handleFeedRequest wCfg wEnv wSt "post" "rss" (some "\x22abc123\x22") none).1.fetchCount = 0 :=
  (conditional_request_spec wCfg wEnv wSt "post" "rss" "rss"
    (some "\x22abc123\x22") none wEntry rfl (by decide) (by decide) (by decide)).1 rfl

/-- Helper: states with the same stored content records have the same
stale reads. -/
theorem getFeedContentStale_congr (st1 st : CacheState) (s f : String)
    (h : st1.feedContent = st.feedContent) :
    getFeedContentStale st1 s f = getFeedContentStale st s f := by
  unfold getFeedContentStale lookupFeedContent
  rw [h]

/-- C3: with caching enabled and no fresh content entry, when the refresh
path throws (upstream fetch or render failure) the handler serves the
stored — possibly expired — content entry with 200, `X-Cache: STALE`, a
Warning header and that entry's full body (non-empty whenever the stored
content is); when no content entry exists at all it returns 500 with the
JSON error field "Failed to generate feed". -/
theorem stale_or_500_spec (cfg : CacheConfig) (env : Env) (st : CacheState)
    (collectionSegment formatSegment format : String)
    (ifNoneMatch cacheBust : Option String) (e : String)
    (hen : cfg.enabled = true)
    (hfmt : parseFormat formatSegment = some format)
    (hmiss : getFeedContent cfg env.now st (env.singular (strLower collectionSegment)) format
      = none)
    (hthrow : refreshThrows cfg env st (env.singular (strLower collectionSegment)) format cacheBust
      = some e) :
    (∀ entry,
      getFeedContentStale st (env.singular (strLower collectionSegment)) format = some entry →
        (handleFeedRequest cfg env st collectionSegment formatSegment ifNoneMatch cacheBust).1.status = 200
      ∧ headerVal (handleFeedRequest cfg env st collectionSegment formatSegment ifNoneMatch cacheBust).1
          "X-Cache" = some "STALE"
      ∧ headerVal (handleFeedRequest cfg env st collectionSegment formatSegment ifNoneMatch cacheBust).1
          "Warning" = some "299 - \x22Cache is stale\x22"
      ∧ (handleFeedRequest cfg env st collectionSegment formatSegment ifNoneMatch cacheBust).1.body
          = RespBody.text entry.content
      ∧ (entry.content ≠ "" →
          (handleFeedRequest cfg env st collectionSegment formatSegment ifNoneMatch cacheBust).1.body
            ≠ RespBody.text ""))
  ∧ (getFeedContentStale st (env.singular (strLower collectionSegment)) format = none →
        (handleFeedRequest cfg env st collectionSegment formatSegment ifNoneMatch cacheBust).1.status = 500
      ∧ jsonField (handleFeedRequest cfg env st collectionSegment formatSegment ifNoneMatch cacheBust).1
          "error" = some "Failed to generate feed") := by
  have hserve : ∀ st' fc lk, st'.feedContent = st.feedContent →
      (∀ entry,
        getFeedContentStale st (env.singular (strLower collectionSegment)) format = some entry →
          (serveStaleOrError cfg st' (env.singular (strLower collectionSegment)) format e fc lk).status = 200
        ∧ headerVal (serveStaleOrError cfg st' (env.singular (strLower collectionSegment)) format e fc lk)
            "X-Cache" = some "STALE"
        ∧ headerVal (serveStaleOrError cfg st' (env.singular (strLower collectionSegment)) format e fc lk)
            "Warning" = some "299 - \x22Cache is stale\x22"
        ∧ (serveStaleOrError cfg st' (env.singular (strLower collectionSegment)) format e fc lk).body
            = RespBody.text entry.content
        ∧ (entry.content ≠ "" →
            (serveStaleOrError cfg st' (env.singular (strLower collectionSegment)) format e fc lk).body
              ≠ RespBody.text ""))
      ∧ (getFeedContentStale st (env.singular (strLower collectionSegment)) format = none →
          (serveStaleOrError cfg st' (env.singular (strLower collectionSegment)) format e fc lk).status = 500
        ∧ jsonField (serveStaleOrError cfg st' (env.singular (strLower collectionSegment)) format e fc lk)
            "error" = some "Failed to generate feed") := by
    intro st' fc lk hfc
    have hread := getFeedContentStale_congr st' st
      (env.singular (strLower collectionSegment)) format hfc
    constructor
    · intro entry hentry
      unfold serveStaleOrError
      simp only [hen, reduceIte, hread, hentry]
      refine ⟨by trivial, by trivial, by trivial, by trivial, ?_⟩
      intro hne
      simp [hne]
    · intro hnone
      unfold serveStaleOrError
      simp only [hen, reduceIte, hread, hnone]
      exact ⟨by trivial, by trivial⟩
  unfold handleFeedRequest
  rw [hfmt]
  simp only [hen, reduceIte, hmiss]
  unfold refreshThrows at hthrow
  cases hrw : refreshWork cfg env st (env.singular (strLower collectionSegment)) with
  | error e' =>
    simp only [hrw, Option.some.injEq] at hthrow
    subst hthrow
    simp only [hrw]
    exact hserve st _ _ rfl
  | ok pr =>
    obtain ⟨items, st1⟩ := pr
    cases hrender : env.render items format cacheBust with
    | error e' =>
      simp only [hrw, hrender, Option.some.injEq] at hthrow
      subst hthrow
      simp only [hrw, hrender]
      exact hserve st1 _ _ (refreshWork_feedContent cfg env st _ items st1 hrw)
    | ok body =>
      simp only [hrw, hrender] at hthrow
      simp at hthrow

/-- C3 witness: the stale conjunct at the concrete scenario — the stored
entry is expired, the upstream fetch rejects, and the entry is served
stale. -/
theorem stale_or_500_spec_witness :
    (handleFeedRequest wCfg wErrEnv wSt "post" "rss" none none).1.status = 200
  ∧ headerVal (handleFeedRequest wCfg wErrEnv wSt "post" "rss" none none).1 "X-Cache"
      = some "STALE"
  ∧ (handleFeedRequest wCfg wErrEnv wSt "post" "rss" none none).1.body
      = RespBody.text wEntry.content :=
  let h := (stale_or_500_spec wCfg wErrEnv wSt "post" "rss" "rss" none none
    "Network error" rfl (by decide) (by decide) (by decide)).1 wEntry (by decide)
  ⟨h.1, h.2.1, h.2.2.2.1⟩

/-- Helper: a caller arriving while a promise for the key is in flight
joins that promise and leaves the coordinator state unchanged, for any
number of such callers. -/
theorem arriveAll_hot (k : String) (st : LockState) (p : Nat)
    (h : (st.inflight.find? (fun q => q.1 == k)).map (fun q => q.2) = some p) :
    ∀ m, arriveAll k m st = (List.replicate m p, st) := by
  intro m
  induction m with
  | zero => rfl
  | succ m ih =>
    simp [arriveAll, acquire, h, ih, List.replicate_succ]

/-- C1: in the single-flight coordinator, a storm of n concurrent callers
arriving for one key against a cold map before the first call resolves
starts the work exactly once (one execution is logged), and every caller
receives the promise of that single execution, hence the same result or
the same rejection; moreover `handleFeedRequest` enters the lock only
under the schema key (never a format-dependent key) and invokes the
upstream fetcher at most once per request, so concurrent requests for one
schema with any mix of formats share the single upstream fetch of the
winning execution. -/
theorem single_flight_spec (k : String) (n : Nat) (st : LockState)
    (hcold : st.inflight.find? (fun q => q.1 == k) = none) (hn : 0 < n) :
    ((arriveAll k n st).1 = List.replicate n st.nextId)
  ∧ ((arriveAll k n st).2.execs = st.execs ++ [k])
  ∧ (∀ res : Nat → Except String (List ContentItem),
      (arriveAll k n st).1.map res = List.replicate n (res st.nextId))
  ∧ (∀ (cfg : CacheConfig) (env : Env) (cst : CacheState)
      (coll fmtSeg : String) (inm cb : Option String),
      ((handleFeedRequest cfg env cst coll fmtSeg inm cb).1.lockKey = none ∨
        (handleFeedRequest cfg env cst coll fmtSeg inm cb).1.lockKey =
          some (env.singular (strLower coll))) ∧
      (handleFeedRequest cfg env cst coll fmtSeg inm cb).1.fetchCount ≤ 1) := by
  have hstep : acquire k st =
      (st.nextId, { inflight := (k, st.nextId) :: st.inflight,
                    execs := st.execs ++ [k], nextId := st.nextId + 1 }) := by
    simp [acquire, hcold]
  have hhot : ((LockState.mk ((k, st.nextId) :: st.inflight) (st.execs ++ [k])
      (st.nextId + 1)).inflight.find? (fun q => q.1 == k)).map (fun q => q.2) =
        some st.nextId := by
    simp
  obtain ⟨m, rfl⟩ : ∃ m, n = m + 1 := ⟨n - 1, by omega⟩
  have hall : arriveAll k (m + 1) st =
      (List.replicate (m + 1) st.nextId,
       { inflight := (k, st.nextId) :: st.inflight,
         execs := st.execs ++ [k], nextId := st.nextId + 1 }) := by
    simp [arriveAll, hstep, arriveAll_hot _ _ _ hhot m, List.replicate_succ]
  refine ⟨by rw [hall], by rw [hall], fun res => by rw [hall]; simp, ?_⟩
  intro cfg env cst coll fmtSeg inm cb
  simp only [handleFeedRequest, serveStaleOrError]
  repeat' split
  all_goals simp

/-- C1 witness: three concurrent callers against a cold coordinator — all
three receive promise 0 and the execution log gains exactly one entry. -/
theorem single_flight_spec_witness :
    ((arriveAll "post" 3 ⟨[], [], 0⟩).1 = List.replicate 3 0)
  ∧ ((arriveAll "post" 3 ⟨[], [], 0⟩).2.execs = [] ++ ["post"]) :=
  let h := single_flight_spec "post" 3 ⟨[], [], 0⟩ (by decide) (by decide)
  ⟨h.1, h.2.1⟩

end SeedFeed

